import Mathlib

/-!
Verification of the FastBLEOTA firmware uploader (src/BLE_OTA.py).

This file is a shallow embedding of the OTA protocol engine: the wire
codec (init packet, progress notifications), the CRC-32 checksum, the
transfer statistics value type, the chunk transfer loop, and the
`upload` orchestration including its exception handlers and the
completion wait.  Python integers are modelled as Nat/Int (Python ints
are unbounded and signed; byte counters that can only be nonnegative in
the modelled claims are still kept as Int where the source field type is
a plain `int`), floats used only for wall-clock arithmetic are modelled
as rationals, byte strings as lists of naturals, and exceptions as
`Except` values.  The BLE transport (bleak) is an external collaborator:
its behaviour during one `upload` call is abstracted into an environment
record `Env` that fixes, for every interaction point of the engine, what
the transport does there (raise / succeed, the notification snapshots,
the disconnect flag).
-/

/-- Device OTA state machine states, mirroring `class DeviceState(IntEnum)`. -/
inductive DeviceState where
  | idle
  | waiting_init
  | receiving
  | validating
  | applying
  | error
  deriving DecidableEq, Repr

/-- Decoding of a raw state byte, mirroring the `DeviceState(state)` enum
constructor which raises `ValueError` (here: `none`) on unknown values. -/
def DeviceState.fromNat? : Nat → Option DeviceState
  | 0 => some DeviceState.idle
  | 1 => some DeviceState.waiting_init
  | 2 => some DeviceState.receiving
  | 3 => some DeviceState.validating
  | 4 => some DeviceState.applying
  | 5 => some DeviceState.error
  | _ => none

/-- Device error codes, mirroring `class DeviceError(IntEnum)`. -/
inductive DeviceError where
  | none
  | init_packet_invalid
  | size_too_large
  | storage_begin_failed
  | write_failed
  | crc_mismatch
  | size_mismatch
  | finalize_failed
  | timeout
  | aborted
  | not_supported
  deriving DecidableEq, Repr

/-- Decoding of a raw error byte, mirroring the `DeviceError(error)` enum
constructor which raises `ValueError` (here: `none`) on unknown values. -/
def DeviceError.fromNat? : Nat → Option DeviceError
  | 0 => some DeviceError.none
  | 1 => some DeviceError.init_packet_invalid
  | 2 => some DeviceError.size_too_large
  | 3 => some DeviceError.storage_begin_failed
  | 4 => some DeviceError.write_failed
  | 5 => some DeviceError.crc_mismatch
  | 6 => some DeviceError.size_mismatch
  | 7 => some DeviceError.finalize_failed
  | 8 => some DeviceError.timeout
  | 9 => some DeviceError.aborted
  | 10 => some DeviceError.not_supported
  | _ => none

/-- Parsed device progress notification, mirroring `@dataclass DeviceProgress`
with its field defaults.  `crc_calculated` is signed (struct format `<i`). -/
structure DeviceProgress where
  state : DeviceState := DeviceState.idle
  error : DeviceError := DeviceError.none
  percent : Nat := 0
  bytes_received : Nat := 0
  bytes_expected : Nat := 0
  crc_calculated : Int := 0
  deriving DecidableEq, Repr

/-- Little-endian unsigned 32-bit value from four bytes. -/
def u32le (b0 b1 b2 b3 : Nat) : Nat :=
  b0 + 256 * b1 + 65536 * b2 + 16777216 * b3

/-- Embedding of `DeviceProgress.from_bytes`: a notification of at least 15
bytes is unpacked as little-endian `<BBBIIi`; an unknown enum byte raises
(`none`); fewer than 15 bytes returns the all-default instance. -/
def DeviceProgress.from_bytes (data : List Nat) : Option DeviceProgress :=
  if 15 ≤ data.length then
    match DeviceState.fromNat? (data.getD 0 0), DeviceError.fromNat? (data.getD 1 0) with
    | some st, some er =>
        let crcU := u32le (data.getD 11 0) (data.getD 12 0) (data.getD 13 0) (data.getD 14 0)
        some { state := st
               error := er
               percent := data.getD 2 0
               bytes_received := u32le (data.getD 3 0) (data.getD 4 0) (data.getD 5 0) (data.getD 6 0)
               bytes_expected := u32le (data.getD 7 0) (data.getD 8 0) (data.getD 9 0) (data.getD 10 0)
               crc_calculated := if crcU < 2 ^ 31 then (crcU : Int) else (crcU : Int) - 2 ^ 32 }
    | _, _ => Option.none
  else some {}

/-- Statistics for the current transfer, mirroring `@dataclass TransferStats`.
The Python fields are plain `int` / `float`; counters are modelled as `Int`
and the wall-clock start time as a rational. -/
structure TransferStats where
  start_time : Rat := 0
  bytes_sent : Int := 0
  bytes_total : Int := 0
  packets_sent : Int := 0
  packets_total : Int := 0
  deriving DecidableEq, Repr

/-- Embedding of the `TransferStats.percent` property: Python floor division
(`//`, which is `Int.fdiv`) saturated at 100, with a zero-total guard. -/
def TransferStats.percent (s : TransferStats) : Int :=
  if s.bytes_total = 0 then 0
  else min 100 (Int.fdiv (s.bytes_sent * 100) s.bytes_total)

/-- Embedding of the `TransferStats.elapsed` property; `now` stands for the
value of `time.time()` at the moment the property is read. -/
def TransferStats.elapsed (s : TransferStats) (now : Rat) : Rat :=
  if s.start_time = 0 then 0 else now - s.start_time

/-- Embedding of the `TransferStats.speed` property. -/
def TransferStats.speed (s : TransferStats) (now : Rat) : Rat :=
  if s.elapsed now ≤ 0 then 0 else (s.bytes_sent : Rat) / s.elapsed now

/-- Embedding of the `TransferStats.eta` property, with the remaining-bytes
term clamped at zero exactly as `max(0, bytes_total - bytes_sent)`. -/
def TransferStats.eta (s : TransferStats) (now : Rat) : Rat :=
  if s.bytes_sent ≤ 0 ∨ s.elapsed now ≤ 0 then 0
  else ((max 0 (s.bytes_total - s.bytes_sent) : Int) : Rat) / s.speed now

/-- Result of an upload operation, mirroring `@dataclass UploadResult`. -/
structure UploadResult where
  success : Bool := false
  error_message : String := ""
  stats : TransferStats := {}
  device_error : Option DeviceError := Option.none
  deriving DecidableEq, Repr

/-- Four little-endian bytes of an unsigned 32-bit value. -/
def u32le_bytes (x : Nat) : List Nat :=
  [x % 256, x / 256 % 256, x / 65536 % 256, x / 16777216 % 256]

/-- Embedding of `create_init_packet`: `struct.pack` with format `<IIB`
produces the 9-byte little-endian layout and raises `struct.error`
(here: `none`) when a value does not fit its field. -/
def create_init_packet (size crc : Nat) (flags : Nat := 0) : Option (List Nat) :=
  if size < 2 ^ 32 ∧ crc < 2 ^ 32 ∧ flags < 2 ^ 8 then
    some (u32le_bytes size ++ u32le_bytes crc ++ [flags])
  else Option.none

/-- Modelled from the spec: the matching little-endian decoder for the init
packet, which the source does not contain (the spec round-trip property in
section 8 postulates it).  It accepts exactly 9 bytes laid out as
little-endian size:4, crc:4, flags:1. -/
def decode_init_packet (pkt : List Nat) : Option (Nat × Nat × Nat) :=
  match pkt with
  | [s0, s1, s2, s3, c0, c1, c2, c3, f] =>
      some (u32le s0 s1 s2 s3, u32le c0 c1 c2 c3, f)
  | _ => Option.none

/-- The reflected IEEE 802.3 CRC-32 polynomial. -/
def crc32_poly : Nat := 0xEDB88320

/-- One shift step of the reflected CRC-32 register: shift right and
conditionally fold in the polynomial when the low bit is set. -/
def crc32_half_step (c : Nat) : Nat :=
  if c &&& 1 = 1 then (c >>> 1) ^^^ crc32_poly else c >>> 1

/-- Iterate the CRC register shift step. -/
def crc32_iter : Nat → Nat → Nat
  | 0, c => c
  | k + 1, c => crc32_iter k (crc32_half_step c)

/-- Embedding of `calculate_crc32` (zlib.crc32 masked to 32 bits): the
register starts at `0xFFFFFFFF`, each byte is XORed into the register and
followed by eight shift steps, and the final register is complemented. -/
def calculate_crc32 (data : List Nat) : Nat :=
  (data.foldl (fun c b => crc32_iter 8 (c ^^^ b)) 0xFFFFFFFF) ^^^ 0xFFFFFFFF

/-- The `k` least-significant bits of `m`, least significant first. -/
def lsb_bits : Nat → Nat → List Nat
  | 0, _ => []
  | k + 1, m => (m % 2) :: lsb_bits k (m / 2)

/-- Modelled from the spec: the reference bit-serial IEEE 802.3 CRC-32
(the standard reflected algorithm named in section 4.1), processing each
message bit by XORing it into the low end of the register and then shifting,
with init value `0xFFFFFFFF` and final complement.  The source delegates to
the external zlib library, which is specified to implement exactly this. -/
def crc32_ref_bit_step (c b : Nat) : Nat :=
  if (c ^^^ b) % 2 = 1 then ((c ^^^ b) / 2) ^^^ 0xEDB88320 else (c ^^^ b) / 2

/-- Reference IEEE CRC-32 over a byte string: each byte contributes its
eight bits least-significant first. -/
def ieee_crc32 (data : List Nat) : Nat :=
  (data.foldl (fun c byte => (lsb_bits 8 byte).foldl crc32_ref_bit_step c) 0xFFFFFFFF)
    ^^^ 0xFFFFFFFF

/-- The flow-control constant `OTAProtocol.ACK_INTERVAL`. -/
def ACK_INTERVAL : Nat := 200

/-- A transport-level exception: `isBleak` distinguishes `BleakError`
(caught by the first handler) from any other `Exception` (second handler);
`msg` is its `str(e)` rendering. -/
structure Exc where
  isBleak : Bool
  msg : String
  deriving DecidableEq, Repr

/-- The chunk transfer loop of `OTAProtocol._transfer_firmware`, one
constructor application per `while offset < len(firmware_data)` iteration.
`wexc i` says whether the transport raises at the write of chunk number `i`
(`i` = `stats.packets_sent` at the moment of the write).  The result is the
final `offset` (= `bytes_sent`), the final `packets_sent`, and the trace of
writes as pairs (chunk length, `use_response`).  `fuel` bounds the
iteration count; `fuel = L` is sufficient whenever the chunk size is
positive, which the theorems below assume (the source loops forever when
`chunk_size < 1`, an open question flagged by the spec). -/
def transferGo (wexc : Nat → Option Exc) (L C : Nat) :
    Nat → Nat → Nat → Except Exc (Nat × Nat × List (Nat × Bool))
  | 0, offset, packets => Except.ok (offset, packets, [])
  | fuel + 1, offset, packets =>
    if offset < L then
      match wexc packets with
      | some e => Except.error e
      | Option.none =>
        let chunk := min C (L - offset)
        let use_response :=
          decide (L ≤ offset + chunk) ||
            (decide (packets % ACK_INTERVAL = 0) && decide (0 < packets))
        match transferGo wexc L C fuel (offset + chunk) (packets + 1) with
        | Except.error e => Except.error e
        | Except.ok (fo, fp, tr) => Except.ok (fo, fp, (chunk, use_response) :: tr)
    else Except.ok (offset, packets, [])

/-- Embedding of `OTAProtocol._transfer_firmware`: set `bytes_total`,
`packets_total = (L + C - 1) // C` and run the chunk loop; on a transport
exception the locally mutated stats are discarded (the exception escapes
before `result.stats` is assigned).  `start_time` is abstracted to 0. -/
def transfer_firmware (wexc : Nat → Option Exc) (L C : Nat) :
    Except Exc (TransferStats × List (Nat × Bool)) :=
  match transferGo wexc L C L 0 0 with
  | Except.error e => Except.error e
  | Except.ok (fo, fp, tr) =>
      Except.ok ({ start_time := 0
                   bytes_sent := (fo : Int)
                   bytes_total := (L : Int)
                   packets_sent := (fp : Int)
                   packets_total := (((L + C - 1) / C : Nat) : Int) }, tr)

/-- Outcome of `BleakScanner.find_device_by_address`: it can raise (this
call sits outside the `try` block), find nothing, or find the device. -/
inductive FindOutcome where
  | raises (e : Exc)
  | notFound
  | found
  deriving DecidableEq, Repr

/-- The behaviour of the BLE transport during one `upload` call.  Each field
fixes what happens at one interaction point of the engine: whether an
exception is raised there, and the values of the two pieces of
asynchronously updated state (the `disconnected` latch and the latest
`device_progress` snapshot) at the moments the engine reads them. -/
structure Env where
  findOutcome : FindOutcome
  mtu : Nat
  openExc : Option Exc
  initWriteExc : Option Exc
  progressAfterInit : DeviceProgress
  chunkWriteExc : Nat → Option Exc
  closeExc : Option Exc
  disconnectWithin15s : Bool
  progressAtTimeout : DeviceProgress
  disconnectedAtExc : Bool
  progressAtExc : DeviceProgress

/-- Embedding of `OTAProtocol._wait_for_completion`: a disconnect observed
within the 15 s timeout yields `True`; on timeout the latest device state
decides — `APPLYING` yields `True`, `ERROR` yields `False`, anything else
yields `True` (with only a cautionary log). -/
def wait_for_completion (env : Env) : Bool :=
  if env.disconnectWithin15s then true
  else
    match env.progressAtTimeout.state with
    | DeviceState.applying => true
    | DeviceState.error => false
    | _ => true

/-- The `UploadResult` as first initialised by `upload`: all defaults except
`result.stats.bytes_total = len(firmware_data)`. -/
def initResult (L : Nat) : UploadResult :=
  { stats := { bytes_total := (L : Int) } }

/-- Leaving the `async with BleakClient(...)` block runs the client
teardown, which may itself raise; a raise there carries the result object
as already populated at that point. -/
def closeStep (env : Env) (r : UploadResult) : Except (Exc × UploadResult) UploadResult :=
  match env.closeExc with
  | some e => Except.error (e, r)
  | Option.none => Except.ok r

/-- The body of the `try` block of `OTAProtocol.upload`, from entering the
`BleakClient` context to leaving it.  An `Except.error` carries the
exception together with the `result` object as populated at the moment the
exception escapes (the handlers mutate that same object).  The firmware
buffer enters only through its length `L`: its bytes feed only the CRC and
the chunk payloads, which the transport abstraction does not inspect. -/
def uploadBody (env : Env) (L : Nat) : Except (Exc × UploadResult) UploadResult :=
  match env.openExc with
  | some e => Except.error (e, initResult L)
  | Option.none =>
    match env.initWriteExc with
    | some e => Except.error (e, initResult L)
    | Option.none =>
      if env.progressAfterInit.state = DeviceState.error then
        closeStep env
          { initResult L with
              error_message := "Device rejected init"
              device_error := some env.progressAfterInit.error }
      else
        match transfer_firmware env.chunkWriteExc L (env.mtu - 3) with
        | Except.error e => Except.error (e, initResult L)
        | Except.ok (stats, _) =>
            closeStep env
              { initResult L with
                  success := wait_for_completion env
                  stats := stats }

/-- The exception handlers at the end of `OTAProtocol.upload`: a
`BleakError` with the disconnect latch set or the last known state
`APPLYING` is reinterpreted as success; any other `BleakError` records its
message; a generic exception is reinterpreted as success only when the
latch is set, otherwise records its message.  The handlers only ever set
`success := true` or `error_message`; nothing is cleared. -/
def handleExc (env : Env) (e : Exc) (r : UploadResult) : UploadResult :=
  if e.isBleak then
    if env.disconnectedAtExc || decide (env.progressAtExc.state = DeviceState.applying) then
      { r with success := true }
    else { r with error_message := e.msg }
  else
    if env.disconnectedAtExc then { r with success := true }
    else { r with error_message := e.msg }

/-- Embedding of `OTAProtocol.upload`: the device lookup happens before the
`try` block, so an exception there propagates (`Except.error`); a lookup
miss returns a failed result; otherwise the body runs under the two
exception handlers and `upload` returns whatever result object they leave
behind. -/
def upload (env : Env) (L : Nat) : Except Exc UploadResult :=
  match env.findOutcome with
  | FindOutcome.raises e => Except.error e
  | FindOutcome.notFound =>
      Except.ok { initResult L with error_message := "Device not found" }
  | FindOutcome.found =>
    match uploadBody env L with
    | Except.ok r => Except.ok r
    | Except.error (e, r) => Except.ok (handleExc env e r)

/-- The exception (if any) on which a body run aborted; used to state
counterexamples without existential binders. -/
def bodyExc (x : Except (Exc × UploadResult) UploadResult) : Option Exc :=
  match x with
  | Except.error (e, _) => some e
  | Except.ok _ => Option.none

/-- Closed form of the write performed for the chunk with 0-based index `i`
in a transfer of `L` bytes with chunk size `C`: its length and whether it is
an acknowledged (`use_response`) write. -/
def writeSpec (L C i : Nat) : Nat × Bool :=
  (min C (L - i * C),
   decide (L ≤ i * C + min C (L - i * C)) ||
     (decide (i % ACK_INTERVAL = 0) && decide (0 < i)))

/-- A benign transport behaviour: the device is found, no call raises, no
disconnect is observed within the completion timeout, and every progress
snapshot is the all-default one. -/
def envBase : Env :=
  { findOutcome := FindOutcome.found
    mtu := 23
    openExc := Option.none
    initWriteExc := Option.none
    progressAfterInit := {}
    chunkWriteExc := fun _ => Option.none
    closeExc := Option.none
    disconnectWithin15s := false
    progressAtTimeout := {}
    disconnectedAtExc := false
    progressAtExc := {} }

/-- A run in which the completion wait times out while the device reports
state `ERROR` with code `CRC_MISMATCH`. -/
def envTimeoutError : Env :=
  { envBase with
      progressAtTimeout := { state := DeviceState.error, error := DeviceError.crc_mismatch } }

/-- A run in which everything succeeds (the wait times out with the device
still idle, the lenient success path), but the session teardown raises a
`BleakError` with the disconnect latch unset. -/
def envTeardownBoom : Env :=
  { envBase with closeExc := some { isBleak := true, msg := "boom" } }

/-- A run in which the device lookup itself raises. -/
def envFindRaises : Env :=
  { envBase with findOutcome := FindOutcome.raises { isBleak := false, msg := "scan fail" } }

/-- A run in which the init-packet write raises a `BleakError` with the
disconnect latch unset and the device not in the `APPLYING` state. -/
def envInitBleak : Env :=
  { envBase with initWriteExc := some { isBleak := true, msg := "link reset" } }

/-- A run observing the disconnect signal within the completion timeout. -/
def envDisconnect : Env :=
  { envBase with disconnectWithin15s := true }

/-- A `TransferStats` with a negative `bytes_total`, before an update. -/
def statsNegTotal : TransferStats :=
  { bytes_sent := 0, bytes_total := -1 }

/-- The same `TransferStats` after `bytes_sent` increased by one. -/
def statsNegTotalBumped : TransferStats :=
  { bytes_sent := 1, bytes_total := -1 }

theorem transferGo_done (wexc : Nat → Option Exc) (L C fuel offset packets : Nat)
    (h : ¬ offset < L) :
    transferGo wexc L C fuel offset packets = Except.ok (offset, packets, []) := by
  cases fuel <;> simp [transferGo, h]

theorem transferGo_closed (wexc : Nat → Option Exc) (L C : Nat) (hC : 0 < C)
    (hnone : ∀ i, wexc i = Option.none) (fuel : Nat) :
    ∀ p, p * C < L → L - p * C ≤ fuel →
      transferGo wexc L C fuel (p * C) p =
        Except.ok (L, (L + C - 1) / C,
          (List.range' p ((L + C - 1) / C - p)).map (writeSpec L C)) := by
  induction fuel with
  | zero =>
    intro p h1 h2
    exact absurd h2 (by omega)
  | succ fuel ih =>
    intro p h1 h2
    rw [show transferGo wexc L C (fuel + 1) (p * C) p =
          (if p * C < L then
            match wexc p with
            | some e => Except.error e
            | Option.none =>
              let chunk := min C (L - p * C)
              let use_response :=
                decide (L ≤ p * C + chunk) ||
                  (decide (p % ACK_INTERVAL = 0) && decide (0 < p))
              match transferGo wexc L C fuel (p * C + chunk) (p + 1) with
              | Except.error e => Except.error e
              | Except.ok (fo, fp, tr) => Except.ok (fo, fp, (chunk, use_response) :: tr)
          else Except.ok (p * C, p, [])) from rfl]
    rw [if_pos h1, hnone p]
    dsimp only
    by_cases hlast : L ≤ p * C + min C (L - p * C)
    · have hn : (L + C - 1) / C = p + 1 := by
        have e1 : (p + 1) * C = p * C + C := by ring
        have e2 : (p + 1 + 1) * C = p * C + C + C := by ring
        exact Nat.div_eq_of_lt_le (by omega) (by omega)
      rw [transferGo_done wexc L C fuel _ _ (by omega)]
      have hoff : p * C + min C (L - p * C) = L := by omega
      dsimp only
      rw [hn]
      simp only [Nat.add_sub_cancel_left, List.range'_one, List.map_cons, List.map_nil]
      rw [hoff]
      simp [writeSpec, hlast]
    · have hmin : min C (L - p * C) = C := by omega
      have e1 : (p + 1) * C = p * C + C := by ring
      have hstep : (p + 1) * C < L := by omega
      have h2' := ih (p + 1) hstep (by omega)
      rw [e1] at h2'
      rw [hmin, h2']
      dsimp only
      have hpn : p + 1 + 1 ≤ (L + C - 1) / C := by
        rw [Nat.le_div_iff_mul_le hC]
        have e2 : (p + 1 + 1) * C = p * C + C + C := by ring
        omega
      rw [show (L + C - 1) / C - p = ((L + C - 1) / C - (p + 1)) + 1 from by omega,
        List.range'_succ]
      simp only [List.map_cons]
      rw [show writeSpec L C p = (C,
            decide (L ≤ p * C + C) ||
              (decide (p % ACK_INTERVAL = 0) && decide (0 < p))) from by
        simp [writeSpec, hmin]]

theorem transfer_firmware_closed (wexc : Nat → Option Exc) (L C : Nat) (hC : 0 < C)
    (hnone : ∀ i, wexc i = Option.none) :
    transfer_firmware wexc L C =
      Except.ok ({ start_time := 0
                   bytes_sent := (L : Int)
                   bytes_total := (L : Int)
                   packets_sent := (((L + C - 1) / C : Nat) : Int)
                   packets_total := (((L + C - 1) / C : Nat) : Int) },
                 (List.range ((L + C - 1) / C)).map (writeSpec L C)) := by
  rcases Nat.eq_zero_or_pos L with hL | hL
  · subst hL
    have hn : (C - 1) / C = 0 := Nat.div_eq_of_lt (by omega)
    unfold transfer_firmware
    rw [show transferGo wexc 0 C 0 0 0 = Except.ok (0, 0, []) from rfl]
    simp [hn]
  · have h := transferGo_closed wexc L C hC hnone L 0 (by simpa using hL) (by omega)
    rw [Nat.zero_mul] at h
    unfold transfer_firmware
    rw [h, Nat.sub_zero, ← List.range_eq_range']

theorem shiftRight_one_eq_div_two (m : Nat) : m >>> 1 = m / 2 := by
  rw [Nat.shiftRight_eq_div_pow, Nat.pow_one]

theorem xor_div_two (a b : Nat) : (a ^^^ b) / 2 = a / 2 ^^^ b / 2 := by
  rw [← shiftRight_one_eq_div_two, ← shiftRight_one_eq_div_two, ← shiftRight_one_eq_div_two]
  apply Nat.eq_of_testBit_eq
  intro i
  simp [Nat.testBit_shiftRight, Nat.testBit_xor]

theorem xor_mod_two (a b : Nat) : (a ^^^ b) % 2 = a % 2 ^^^ b % 2 := by
  rw [← Nat.and_one_is_mod, ← Nat.and_one_is_mod, ← Nat.and_one_is_mod,
    Nat.and_xor_distrib_right]

theorem crc32_half_step_mod (c : Nat) :
    crc32_half_step c = if c % 2 = 1 then c / 2 ^^^ crc32_poly else c / 2 := by
  rw [crc32_half_step, Nat.and_one_is_mod, shiftRight_one_eq_div_two]

theorem half_step_xor (c m : Nat) :
    crc32_half_step (c ^^^ m) = crc32_ref_bit_step c (m % 2) ^^^ m / 2 := by
  rw [crc32_half_step_mod]
  unfold crc32_ref_bit_step
  have hc2 : (c ^^^ m) % 2 = (c ^^^ m % 2) % 2 := by
    rw [xor_mod_two, xor_mod_two c (m % 2)]
    have : m % 2 % 2 = m % 2 := by omega
    rw [this]
  have hdiv : (c ^^^ m % 2) / 2 = c / 2 := by
    rw [xor_div_two]
    have : m % 2 / 2 = 0 := by omega
    rw [this, Nat.xor_zero]
  have hdiv2 : (c ^^^ m) / 2 = c / 2 ^^^ m / 2 := xor_div_two c m
  by_cases h : (c ^^^ m) % 2 = 1
  · rw [if_pos h, if_pos (hc2 ▸ h), hdiv2, hdiv]
    rw [Nat.xor_assoc, Nat.xor_assoc]
    congr 1
    exact Nat.xor_comm _ _
  · rw [if_neg h, if_neg (hc2 ▸ h), hdiv2, hdiv]

theorem crc32_iter_bits (k : Nat) :
    ∀ c m, crc32_iter k (c ^^^ m) =
      (lsb_bits k m).foldl crc32_ref_bit_step c ^^^ m / 2 ^ k := by
  induction k with
  | zero =>
    intro c m
    simp [crc32_iter, lsb_bits]
  | succ k ih =>
    intro c m
    rw [show crc32_iter (k + 1) (c ^^^ m) = crc32_iter k (crc32_half_step (c ^^^ m)) from rfl]
    rw [half_step_xor, ih (crc32_ref_bit_step c (m % 2)) (m / 2), Nat.div_div_eq_div_mul]
    have e : (2 : Nat) * 2 ^ k = 2 ^ (k + 1) := by ring
    rw [e]
    rfl

theorem crc32_byte_bits (c m : Nat) (hm : m < 256) :
    crc32_iter 8 (c ^^^ m) = (lsb_bits 8 m).foldl crc32_ref_bit_step c := by
  rw [crc32_iter_bits]
  have h0 : m / 2 ^ 8 = 0 := Nat.div_eq_of_lt (by omega)
  rw [h0, Nat.xor_zero]

theorem crc32_fold_bits (l : List Nat) :
    ∀ c : Nat, (∀ b ∈ l, b < 256) →
      l.foldl (fun c b => crc32_iter 8 (c ^^^ b)) c
        = l.foldl (fun c byte => (lsb_bits 8 byte).foldl crc32_ref_bit_step c) c := by
  induction l with
  | nil => intro c _; rfl
  | cons b l ih =>
    intro c h
    simp only [List.foldl_cons]
    rw [crc32_byte_bits c b (h b (by simp))]
    exact ih _ (fun x hx => h x (by simp [hx]))

theorem calculate_crc32_eq_ieee (data : List Nat) (h : ∀ b ∈ data, b < 256) :
    calculate_crc32 data = ieee_crc32 data := by
  unfold calculate_crc32 ieee_crc32
  rw [crc32_fold_bits data _ h]

theorem crc32_half_step_lt (c : Nat) (h : c < 2 ^ 32) : crc32_half_step c < 2 ^ 32 := by
  unfold crc32_half_step
  have h1 : c >>> 1 < 2 ^ 32 := by
    rw [Nat.shiftRight_eq_div_pow]
    exact lt_of_le_of_lt (Nat.div_le_self _ _) h
  by_cases hb : c &&& 1 = 1
  · rw [if_pos hb]
    exact Nat.xor_lt_two_pow h1 (by norm_num [crc32_poly])
  · rw [if_neg hb]
    exact h1

theorem crc32_iter_lt (k : Nat) : ∀ c, c < 2 ^ 32 → crc32_iter k c < 2 ^ 32 := by
  induction k with
  | zero => intro c hc; exact hc
  | succ k ih => intro c hc; exact ih _ (crc32_half_step_lt c hc)

theorem calculate_crc32_lt (data : List Nat) (h : ∀ b ∈ data, b < 256) :
    calculate_crc32 data < 2 ^ 32 := by
  unfold calculate_crc32
  refine Nat.xor_lt_two_pow ?_ (by norm_num)
  have key : ∀ (l : List Nat) (c : Nat), (∀ b ∈ l, b < 256) → c < 2 ^ 32 →
      l.foldl (fun c b => crc32_iter 8 (c ^^^ b)) c < 2 ^ 32 := by
    intro l
    induction l with
    | nil => intro c _ hc; exact hc
    | cons b l ih =>
      intro c h hc
      simp only [List.foldl_cons]
      refine ih _ (fun x hx => h x (by simp [hx])) ?_
      exact crc32_iter_lt 8 _
        (Nat.xor_lt_two_pow hc (lt_trans (h b (by simp)) (by norm_num)))
  exact key data _ h (by norm_num)

theorem countP_interval_acks (n : Nat) :
    List.countP (fun i => decide (i % ACK_INTERVAL = 0) && decide (0 < i)) (List.range n)
      = (n - 1) / 200 := by
  induction n with
  | zero => simp
  | succ n ih =>
    rw [List.range_succ, List.countP_append, ih, List.countP_singleton]
    rcases Nat.eq_zero_or_pos n with h0 | h0
    · subst h0
      simp
    · by_cases hm : n % 200 = 0
      · simp only [ACK_INTERVAL] at *
        rw [if_pos (by simp [hm, h0])]
        omega
      · rw [if_neg (by simp [ACK_INTERVAL, hm])]
        omega

theorem countP_acks_closed (n : Nat) (hn : 0 < n) :
    List.countP
        (fun i => decide (i = n - 1) || (decide (i % ACK_INTERVAL = 0) && decide (0 < i)))
        (List.range n)
      = (n - 2) / 200 + 1 := by
  obtain ⟨m, rfl⟩ : ∃ m, n = m + 1 := ⟨n - 1, by omega⟩
  rw [List.range_succ, List.countP_append, List.countP_singleton]
  have hcong :
      List.countP
          (fun i => decide (i = m + 1 - 1) || (decide (i % ACK_INTERVAL = 0) && decide (0 < i)))
          (List.range m)
        = List.countP (fun i => decide (i % ACK_INTERVAL = 0) && decide (0 < i))
            (List.range m) := by
    apply List.countP_congr
    intro x hx
    have hxm : x < m := List.mem_range.mp hx
    have hne : ¬ (x = m) := by omega
    simp [hne]
  rw [hcong, countP_interval_acks]
  rw [if_pos (by simp)]
  have e : m + 1 - 2 = m - 1 := by omega
  rw [e]

theorem ackFlag_last_iff (L C : Nat) (hC : 0 < C) (i : Nat) (hi : i < (L + C - 1) / C) :
    (L ≤ i * C + min C (L - i * C)) ↔ i = (L + C - 1) / C - 1 := by
  have hiC : i * C < L := by
    have h : (i + 1) * C ≤ L + C - 1 := (Nat.le_div_iff_mul_le hC).mp hi
    have e : (i + 1) * C = i * C + C := by ring
    omega
  constructor
  · intro h
    have hn : (L + C - 1) / C = i + 1 := by
      have e1 : (i + 1) * C = i * C + C := by ring
      have e2 : (i + 1 + 1) * C = i * C + C + C := by ring
      exact Nat.div_eq_of_lt_le (by omega) (by omega)
    omega
  · intro h
    by_contra hcon
    have hmin : min C (L - i * C) = C := by omega
    have hlt : (i + 1) * C < L := by
      have e : (i + 1) * C = i * C + C := by ring
      omega
    have : i + 1 + 1 ≤ (L + C - 1) / C := by
      rw [Nat.le_div_iff_mul_le hC]
      have e : (i + 1 + 1) * C = i * C + C + C := by ring
      omega
    omega

theorem ceil_bounds (L C : Nat) (hC : 0 < C) :
    L ≤ (L + C - 1) / C * C ∧ (L + C - 1) / C * C < L + C := by
  have h1 : (L + C - 1) / C * C ≤ L + C - 1 := Nat.div_mul_le_self _ _
  have h2 : L + C - 1 < ((L + C - 1) / C + 1) * C :=
    (Nat.div_lt_iff_lt_mul hC).mp (Nat.lt_succ_self _)
  have e : ((L + C - 1) / C + 1) * C = (L + C - 1) / C * C + C := by ring
  omega

theorem uploadBody_clean (env : Env) (L : Nat)
    (hopen : env.openExc = Option.none)
    (hinit : env.initWriteExc = Option.none)
    (hprog : ¬ env.progressAfterInit.state = DeviceState.error)
    (hchunk : ∀ i, env.chunkWriteExc i = Option.none)
    (hclose : env.closeExc = Option.none)
    (hmtu : 3 < env.mtu) :
    uploadBody env L = Except.ok
      { success := wait_for_completion env
        error_message := ""
        stats := { start_time := 0
                   bytes_sent := (L : Int)
                   bytes_total := (L : Int)
                   packets_sent := (((L + (env.mtu - 3) - 1) / (env.mtu - 3) : Nat) : Int)
                   packets_total := (((L + (env.mtu - 3) - 1) / (env.mtu - 3) : Nat) : Int) }
        device_error := Option.none } := by
  unfold uploadBody closeStep
  rw [hopen, hinit, if_neg hprog,
    transfer_firmware_closed env.chunkWriteExc L (env.mtu - 3) (by omega) hchunk, hclose]
  rfl

theorem uploadBody_error_success (env : Env) (L : Nat) (e : Exc) (r : UploadResult)
    (hbody : uploadBody env L = Except.error (e, r)) (hs : r.success = true) :
    env.closeExc = some e := by
  unfold uploadBody closeStep at hbody
  cases ho : env.openExc with
  | some e1 =>
    rw [ho] at hbody
    dsimp only at hbody
    injection hbody with hpair
    injection hpair with h1 h2
    rw [← h2] at hs
    simp [initResult] at hs
  | none =>
    rw [ho] at hbody
    dsimp only at hbody
    cases hi : env.initWriteExc with
    | some e1 =>
      rw [hi] at hbody
      dsimp only at hbody
      injection hbody with hpair
      injection hpair with h1 h2
      rw [← h2] at hs
      simp [initResult] at hs
    | none =>
      rw [hi] at hbody
      dsimp only at hbody
      by_cases hp : env.progressAfterInit.state = DeviceState.error
      · rw [if_pos hp] at hbody
        cases hc : env.closeExc with
        | some c =>
          rw [hc] at hbody
          dsimp only at hbody
          injection hbody with hpair
          injection hpair with h1 h2
          rw [h1]
        | none =>
          rw [hc] at hbody
          exact Except.noConfusion hbody
      · rw [if_neg hp] at hbody
        cases htf : transfer_firmware env.chunkWriteExc L (env.mtu - 3) with
        | error e1 =>
          rw [htf] at hbody
          dsimp only at hbody
          injection hbody with hpair
          injection hpair with h1 h2
          rw [← h2] at hs
          simp [initResult] at hs
        | ok pr =>
          rw [htf] at hbody
          obtain ⟨stats, tr⟩ := pr
          dsimp only at hbody
          cases hc : env.closeExc with
          | some c =>
            rw [hc] at hbody
            dsimp only at hbody
            injection hbody with hpair
            injection hpair with h1 h2
            rw [h1]
          | none =>
            rw [hc] at hbody
            exact Except.noConfusion hbody

/-- Claim C1 (amended): after the chunk transfer loop, on a run in which no
transport call raises, upload waits for the disconnect signal with a
15-second timeout; a disconnect within the timeout yields success; on
timeout the latest device state decides: Applying yields success, Error
yields a failed result whose `device_error` nevertheless stays `None`
(the code only logs the device error code there and never copies it into
the result), and any other state yields success.  The original claim said
the Error outcome carries the device error code; it does not. -/
theorem upload_completion_outcome (env : Env) (L : Nat)
    (hfind : env.findOutcome = FindOutcome.found)
    (hopen : env.openExc = Option.none)
    (hinit : env.initWriteExc = Option.none)
    (hprog : ¬ env.progressAfterInit.state = DeviceState.error)
    (hchunk : ∀ i, env.chunkWriteExc i = Option.none)
    (hclose : env.closeExc = Option.none)
    (hmtu : 3 < env.mtu) :
    ∃ r : UploadResult, upload env L = Except.ok r ∧
      r.success = wait_for_completion env ∧
      r.device_error = Option.none ∧
      r.error_message = "" ∧
      (env.disconnectWithin15s = true → r.success = true) ∧
      (env.disconnectWithin15s = false →
        env.progressAtTimeout.state = DeviceState.applying → r.success = true) ∧
      (env.disconnectWithin15s = false →
        env.progressAtTimeout.state = DeviceState.error → r.success = false) ∧
      (env.disconnectWithin15s = false →
        ¬ env.progressAtTimeout.state = DeviceState.applying →
        ¬ env.progressAtTimeout.state = DeviceState.error → r.success = true) := by
  refine ⟨{ success := wait_for_completion env
            error_message := ""
            stats := { start_time := 0
                       bytes_sent := (L : Int)
                       bytes_total := (L : Int)
                       packets_sent := (((L + (env.mtu - 3) - 1) / (env.mtu - 3) : Nat) : Int)
                       packets_total := (((L + (env.mtu - 3) - 1) / (env.mtu - 3) : Nat) : Int) }
            device_error := Option.none }, ?_, rfl, rfl, rfl, ?_, ?_, ?_, ?_⟩
  · unfold upload
    rw [hfind, uploadBody_clean env L hopen hinit hprog hchunk hclose hmtu]
  · intro hd
    unfold wait_for_completion
    rw [hd]
    rfl
  · intro hd hst
    unfold wait_for_completion
    rw [hd, hst]
    rfl
  · intro hd hst
    unfold wait_for_completion
    rw [hd, hst]
    rfl
  · intro hd h1 h2
    unfold wait_for_completion
    rw [hd]
    cases h : env.progressAtTimeout.state <;> simp_all

/-- Witness for C1: a concrete clean run in which the disconnect arrives
within the timeout; the result is the completion-wait outcome. -/
theorem upload_completion_outcome_witness :
    ∃ r : UploadResult, upload envDisconnect 4 = Except.ok r ∧
      r.success = wait_for_completion envDisconnect := by
  obtain ⟨r, h1, h2, _⟩ :=
    upload_completion_outcome envDisconnect 4 rfl rfl rfl (by decide)
      (fun _ => rfl) rfl (by decide)
  exact ⟨r, h1, h2⟩

/-- Counterexample for C1 as stated: a clean run whose completion wait times
out with the device reporting state Error, code CrcMismatch; the returned
result has success = false but its device_error is None, not CrcMismatch. -/
theorem upload_timeout_error_devcode_cex :
    envTimeoutError.disconnectWithin15s = false ∧
    envTimeoutError.progressAtTimeout.state = DeviceState.error ∧
    envTimeoutError.progressAtTimeout.error = DeviceError.crc_mismatch ∧
    (upload envTimeoutError 1).toOption.map UploadResult.success = some false ∧
    (upload envTimeoutError 1).toOption.map UploadResult.device_error =
      some Option.none ∧
    (Option.none : Option DeviceError) ≠ some DeviceError.crc_mismatch := by
  decide

/-- Claim C2 (amended): a `BleakError` escaping the session block is
reinterpreted as success whenever the disconnect latch is set or the last
known state is Applying; otherwise the exception message is recorded
verbatim and `success` keeps the value it had when the exception escaped —
that value is `false` at every raise point except a teardown exception
after the completion wait already returned success (in which case the
result reports success together with the recorded message; the original
claim called every such exception a failure). -/
theorem upload_bleak_exception_handling (env : Env) (L : Nat) (e : Exc) (r : UploadResult)
    (hfind : env.findOutcome = FindOutcome.found)
    (hbody : uploadBody env L = Except.error (e, r))
    (hbleak : e.isBleak = true) :
    upload env L = Except.ok (handleExc env e r) ∧
    ((env.disconnectedAtExc = true ∨ env.progressAtExc.state = DeviceState.applying) →
      (handleExc env e r).success = true) ∧
    (env.disconnectedAtExc = false → ¬ env.progressAtExc.state = DeviceState.applying →
      (handleExc env e r).error_message = e.msg ∧
      (handleExc env e r).success = r.success) ∧
    (r.success = true → env.closeExc = some e) := by
  refine ⟨?_, ?_, ?_, fun hs => uploadBody_error_success env L e r hbody hs⟩
  · unfold upload
    rw [hfind, hbody]
  · intro h
    have hb : (env.disconnectedAtExc ||
        decide (env.progressAtExc.state = DeviceState.applying)) = true := by
      rcases h with h | h
      · rw [h, Bool.true_or]
      · rw [h]
        simp
    simp [handleExc, hbleak, hb]
  · intro h1 h2
    have hb : (env.disconnectedAtExc ||
        decide (env.progressAtExc.state = DeviceState.applying)) = false := by
      rw [h1]
      simp [h2]
    constructor
    · simp [handleExc, hbleak, hb]
    · simp [handleExc, hbleak, hb]

/-- Witness for C2: a concrete run whose init-packet write raises a
`BleakError` with the latch unset and the device not Applying; the upload
returns a failed result carrying the message verbatim. -/
theorem upload_bleak_exception_handling_witness :
    (upload envInitBleak 1).toOption.map UploadResult.error_message =
      some "link reset" ∧
    (upload envInitBleak 1).toOption.map UploadResult.success = some false := by
  obtain ⟨h1, _, h3, _⟩ :=
    upload_bleak_exception_handling envInitBleak 1
      { isBleak := true, msg := "link reset" } (initResult 1) rfl rfl rfl
  obtain ⟨hm, hsu⟩ := h3 rfl (by decide)
  constructor
  · rw [h1]
    simp only [Except.toOption, Option.map]
    rw [hm]
  · rw [h1]
    simp only [Except.toOption, Option.map]
    rw [hsu]
    rfl

/-- Counterexample for C2 as stated: a `BleakError` raised at session
teardown, after the completion wait already returned success leniently,
with the latch unset and the device not Applying; the claim says such an
upload fails, but the returned result has success = true (while still
recording the message). -/
theorem upload_teardown_exception_success_cex :
    bodyExc (uploadBody envTeardownBoom 1) = some { isBleak := true, msg := "boom" } ∧
    envTeardownBoom.disconnectedAtExc = false ∧
    ¬ envTeardownBoom.progressAtExc.state = DeviceState.applying ∧
    (upload envTeardownBoom 1).toOption.map UploadResult.success = some true ∧
    (upload envTeardownBoom 1).toOption.map UploadResult.error_message = some "boom" := by
  decide

/-- Claim C5 (amended): for every transport behaviour in which the device
lookup does not raise (and the negotiated chunk size is at least one byte,
the source looping forever otherwise), upload returns a populated
`UploadResult` and propagates no exception; an exception raised by the
device lookup itself, which happens before the `try` block, propagates to
the caller. -/
theorem upload_no_propagation_after_discovery (env : Env) (L : Nat)
    (hfind : ∀ e : Exc, ¬ env.findOutcome = FindOutcome.raises e)
    (_hmtu : 3 < env.mtu) :
    ∃ r : UploadResult, upload env L = Except.ok r := by
  unfold upload
  cases h : env.findOutcome with
  | raises e => exact absurd h (hfind e)
  | notFound => exact ⟨_, rfl⟩
  | found =>
    cases hb : uploadBody env L with
    | ok r => exact ⟨r, rfl⟩
    | error p =>
      obtain ⟨e1, r1⟩ := p
      exact ⟨handleExc env e1 r1, rfl⟩

/-- Witness for C5: the benign environment yields a populated result. -/
theorem upload_no_propagation_after_discovery_witness :
    ∃ r : UploadResult, upload envBase 4 = Except.ok r :=
  upload_no_propagation_after_discovery envBase 4 (fun _ h => by simp [envBase] at h)
    (by decide)

/-- Counterexample for C5 as stated: when the device lookup raises, upload
propagates the exception instead of returning an `UploadResult`. -/
theorem upload_discovery_exception_propagates_cex :
    upload envFindRaises 1 = Except.error { isBleak := false, msg := "scan fail" } ∧
    (upload envFindRaises 1).toOption = Option.none :=
  ⟨rfl, rfl⟩

/-- Claim C3 (amended): in the chunk transfer loop with L > 0 and C ≥ 1 and
`packets_total = (L + C - 1) / C`, a write is acknowledged exactly when it
is the final chunk or its 0-based index is a positive multiple of
ACK_INTERVAL = 200 (the first chunk, index 0, is excluded by the
`packets_sent > 0` guard), and the number of acknowledged writes equals
`(packets_total - 2) / 200 + 1` — one fewer than the claimed
`ceil(packets_total / 200) + 1`, except when `packets_total` is congruent
to 1 modulo 200 with `packets_total > 1`, where it is two fewer before the
claimed boundary adjustment and one fewer after it. -/
theorem transfer_ack_count (L C : Nat) (hL : 0 < L) (hC : 0 < C) :
    ∃ stats trace,
      transfer_firmware (fun _ => Option.none) L C = Except.ok (stats, trace) ∧
      List.countP (fun w => w.2) trace = ((L + C - 1) / C - 2) / 200 + 1 ∧
      (∀ i : Fin trace.length,
        (trace.get i).2 =
          (decide ((i : Nat) = (L + C - 1) / C - 1) ||
            (decide ((i : Nat) % ACK_INTERVAL = 0) && decide (0 < (i : Nat))))) := by
  have hn : 0 < (L + C - 1) / C := by
    rw [Nat.lt_iff_add_one_le, Nat.le_div_iff_mul_le hC]
    omega
  refine ⟨_, _, transfer_firmware_closed _ L C hC (fun _ => rfl), ?_, ?_⟩
  · rw [List.countP_map]
    have hcong :
        List.countP ((fun w : Nat × Bool => w.2) ∘ writeSpec L C)
            (List.range ((L + C - 1) / C))
          = List.countP
              (fun i => decide (i = (L + C - 1) / C - 1) ||
                (decide (i % ACK_INTERVAL = 0) && decide (0 < i)))
              (List.range ((L + C - 1) / C)) := by
      apply List.countP_congr
      intro x hx
      have hxlt : x < (L + C - 1) / C := List.mem_range.mp hx
      have hiff := ackFlag_last_iff L C hC x hxlt
      simp only [Function.comp, writeSpec]
      rw [(decide_eq_decide).mpr hiff]
    rw [hcong, countP_acks_closed _ hn]
  · intro i
    have hlt : (i : Nat) < (L + C - 1) / C := by
      have h := i.isLt
      simpa using h
    have hiff := ackFlag_last_iff L C hC (i : Nat) hlt
    rw [List.get_eq_getElem]
    simp only [List.getElem_map, List.getElem_range, writeSpec]
    rw [(decide_eq_decide).mpr hiff]

/-- Witness for C3: a concrete transfer of 450 one-byte chunks has
(450 - 2) / 200 + 1 = 3 acknowledged writes. -/
theorem transfer_ack_count_witness :
    ∃ stats trace,
      transfer_firmware (fun _ => Option.none) 450 1 = Except.ok (stats, trace) ∧
      List.countP (fun w => w.2) trace = 3 := by
  obtain ⟨stats, trace, h1, h2, _⟩ := transfer_ack_count 450 1 (by decide) (by decide)
  exact ⟨stats, trace, h1, h2⟩

/-- Counterexample for C3 as stated: L = 2, C = 1 gives packets_total = 2;
the claimed count is ceil(2/200) + 1 = 2 and the final chunk index 1 is not
on a 200-chunk boundary, yet the loop issues exactly one acknowledged write
(only the final chunk; chunk 0 is never interval-acknowledged). -/
theorem transfer_ack_count_cex :
    (transfer_firmware (fun _ => Option.none) 2 1).toOption.map
        (fun pr => List.countP (fun w => w.2) pr.2) = some 1 ∧
    (2 + 1 - 1) / 1 = 2 ∧
    ((2 + 200 - 1) / 200 + 1 = 2) ∧
    (1 : Nat) ≠ 2 ∧
    ¬ ((2 - 1) % 200 = 0) := by
  decide

/-- Claim C4: for every firmware length L and chunk size C ≥ 1 the loop
iterates the buffer in chunks of C bytes (the last chunk may be shorter:
chunk i has min C (L - i*C) bytes), sets packets_total = ceil(L/C) (the
integer (L + C - 1) / C, pinned by the two product bounds), and terminates
with bytes_sent = L and packets_sent = packets_total; zero-length firmware
completes immediately with packets_total = 0 and an empty write trace. -/
theorem transfer_loop_totals (L C : Nat) (hC : 0 < C) :
    ∃ stats trace,
      transfer_firmware (fun _ => Option.none) L C = Except.ok (stats, trace) ∧
      stats.packets_total = (((L + C - 1) / C : Nat) : Int) ∧
      stats.bytes_sent = (L : Int) ∧
      stats.packets_sent = stats.packets_total ∧
      trace.length = (L + C - 1) / C ∧
      (∀ i : Fin trace.length, (trace.get i).1 = min C (L - (i : Nat) * C)) ∧
      L ≤ (L + C - 1) / C * C ∧ (L + C - 1) / C * C < L + C ∧
      (L = 0 → (L + C - 1) / C = 0 ∧ trace = []) := by
  refine ⟨_, _, transfer_firmware_closed _ L C hC (fun _ => rfl), rfl, rfl, rfl,
    by simp, ?_, (ceil_bounds L C hC).1, (ceil_bounds L C hC).2, ?_⟩
  · intro i
    rw [List.get_eq_getElem]
    simp only [List.getElem_map, List.getElem_range, writeSpec]
  · intro h0
    subst h0
    have hz : (0 + C - 1) / C = 0 := Nat.div_eq_of_lt (by omega)
    exact ⟨hz, by rw [hz]; rfl⟩

/-- Witness for C4: a concrete transfer of 5 bytes in chunks of 2 produces
3 packets and 5 bytes sent. -/
theorem transfer_loop_totals_witness :
    ∃ stats trace,
      transfer_firmware (fun _ => Option.none) 5 2 = Except.ok (stats, trace) ∧
      stats.bytes_sent = (5 : Int) ∧ stats.packets_sent = stats.packets_total := by
  obtain ⟨stats, trace, h1, _, h3, h4, _⟩ := transfer_loop_totals 5 2 (by decide)
  exact ⟨stats, trace, h1, h3, h4⟩

/-- Claim C6: decoding any progress notification shorter than 15 bytes
never raises and yields the all-default DeviceProgress. -/
theorem from_bytes_short_default (data : List Nat) (h : data.length < 15) :
    DeviceProgress.from_bytes data =
      some { state := DeviceState.idle
             error := DeviceError.none
             percent := 0
             bytes_received := 0
             bytes_expected := 0
             crc_calculated := 0 } := by
  unfold DeviceProgress.from_bytes
  rw [if_neg (by omega)]

/-- Witness for C6: a concrete 3-byte notification decodes to the
all-default snapshot. -/
theorem from_bytes_short_default_witness :
    ([5, 3, 75] : List Nat).length < 15 ∧
    DeviceProgress.from_bytes [5, 3, 75] =
      some { state := DeviceState.idle
             error := DeviceError.none
             percent := 0
             bytes_received := 0
             bytes_expected := 0
             crc_calculated := 0 } :=
  ⟨by decide, from_bytes_short_default [5, 3, 75] (by decide)⟩

/-- Claim C7: for every size and crc representable in 32 bits and flags in
8 bits, the init packet encodes to exactly 9 bytes in little-endian layout
size:4, crc:4, flags:1, and the matching decoder recovers the original
triple. -/
theorem init_packet_roundtrip (size crc flags : Nat)
    (hs : size < 2 ^ 32) (hc : crc < 2 ^ 32) (hf : flags < 2 ^ 8) :
    ∃ pkt, create_init_packet size crc flags = some pkt ∧
      pkt.length = 9 ∧ decode_init_packet pkt = some (size, crc, flags) := by
  refine ⟨u32le_bytes size ++ u32le_bytes crc ++ [flags], ?_, by simp [u32le_bytes], ?_⟩
  · unfold create_init_packet
    rw [if_pos ⟨hs, hc, hf⟩]
  · show decode_init_packet
      ([size % 256, size / 256 % 256, size / 65536 % 256, size / 16777216 % 256] ++
        [crc % 256, crc / 256 % 256, crc / 65536 % 256, crc / 16777216 % 256] ++ [flags])
        = some (size, crc, flags)
    unfold decode_init_packet u32le
    simp only [List.cons_append, List.nil_append]
    refine congrArg some ?_
    refine congrArg₂ Prod.mk ?_ (congrArg₂ Prod.mk ?_ rfl)
    · omega
    · omega

/-- Witness for C7: a concrete (size, crc, flags) triple round-trips. -/
theorem init_packet_roundtrip_witness :
    ∃ pkt, create_init_packet 305419896 3735928559 7 = some pkt ∧
      pkt.length = 9 ∧ decode_init_packet pkt = some (305419896, 3735928559, 7) :=
  init_packet_roundtrip 305419896 3735928559 7 (by decide) (by decide) (by decide)

set_option maxRecDepth 16384 in
/-- Claim C8: calculate_crc32 agrees with the reference bit-serial IEEE
802.3 CRC-32 on every byte string, its value fits in an unsigned 32-bit
word, and on the known vectors it yields 0 for the empty buffer and
0xCBF43926 for the ASCII string of the digits 1 through 9.  (Determinism
is immediate: the embedding is a pure function of the buffer.) -/
theorem crc32_reference_and_vectors :
    (∀ data : List Nat, (∀ b ∈ data, b < 256) →
      calculate_crc32 data = ieee_crc32 data ∧ calculate_crc32 data < 2 ^ 32) ∧
    calculate_crc32 [] = 0 ∧
    calculate_crc32 [49, 50, 51, 52, 53, 54, 55, 56, 57] = 0xCBF43926 := by
  refine ⟨fun data h => ⟨calculate_crc32_eq_ieee data h, calculate_crc32_lt data h⟩,
    by decide, by decide⟩

/-- Witness for C8: the agreement instantiated on a concrete buffer. -/
theorem crc32_reference_and_vectors_witness :
    calculate_crc32 [0, 255, 16] = ieee_crc32 [0, 255, 16] :=
  (crc32_reference_and_vectors.1 [0, 255, 16] (by decide)).1

/-- Claim C9 (amended): for every TransferStats with a nonnegative
bytes_total (bytes_total is a byte count; the engine always sets it to a
length), percent is monotone in bytes_sent, and percent never exceeds 100
for any TransferStats whatsoever.  The original unrestricted claim fails:
with a negative bytes_total (constructible, since the field is a plain
int) Python floor division makes percent strictly decrease. -/
theorem percent_monotone_nonneg_total :
    (∀ s t : TransferStats, 0 ≤ s.bytes_total → s.bytes_total = t.bytes_total →
      s.bytes_sent ≤ t.bytes_sent → s.percent ≤ t.percent) ∧
    (∀ s : TransferStats, s.percent ≤ 100) := by
  constructor
  · intro s t h0 he hle
    unfold TransferStats.percent
    rw [← he]
    rcases eq_or_lt_of_le h0 with h | h
    · simp [← h]
    · rw [if_neg (by omega), if_neg (by omega)]
      refine min_le_min (le_refl 100) ?_
      rw [Int.fdiv_eq_ediv _ (le_of_lt h), Int.fdiv_eq_ediv _ (le_of_lt h)]
      exact Int.ediv_le_ediv h (by nlinarith)
  · intro s
    unfold TransferStats.percent
    split
    · norm_num
    · exact min_le_left _ _

/-- Witness for C9: monotonicity instantiated on concrete stats values. -/
theorem percent_monotone_nonneg_total_witness :
    TransferStats.percent { bytes_sent := 1, bytes_total := 10 } ≤
      TransferStats.percent { bytes_sent := 5, bytes_total := 10 } :=
  percent_monotone_nonneg_total.1
    { bytes_sent := 1, bytes_total := 10 } { bytes_sent := 5, bytes_total := 10 }
    (by decide) rfl (by decide)

/-- Counterexample for C9 as stated: with bytes_total = -1 fixed and
bytes_sent growing from 0 to 1, percent falls from 0 to -100. -/
theorem percent_monotone_cex :
    statsNegTotal.bytes_total = statsNegTotalBumped.bytes_total ∧
    statsNegTotal.bytes_sent ≤ statsNegTotalBumped.bytes_sent ∧
    statsNegTotal.percent = 0 ∧
    statsNegTotalBumped.percent = -100 ∧
    ¬ statsNegTotal.percent ≤ statsNegTotalBumped.percent := by
  decide

/-- Claim C10: every derived accessor of TransferStats is total, each
division being guarded: percent is 0 when bytes_total = 0, elapsed is 0
when start_time = 0, speed is 0 when elapsed ≤ 0, eta is 0 when
bytes_sent ≤ 0 or elapsed ≤ 0, the divisor of eta is positive whenever the
guard passes, and the remaining-bytes term of eta is clamped at 0 so eta
is 0 whenever bytes_sent has reached bytes_total. -/
theorem stats_accessors_total (s : TransferStats) (now : Rat) :
    (s.bytes_total = 0 → s.percent = 0) ∧
    (s.start_time = 0 → s.elapsed now = 0) ∧
    (s.elapsed now ≤ 0 → s.speed now = 0) ∧
    (s.bytes_sent ≤ 0 ∨ s.elapsed now ≤ 0 → s.eta now = 0) ∧
    (0 < s.bytes_sent → 0 < s.elapsed now → 0 < s.speed now) ∧
    (s.bytes_total ≤ s.bytes_sent → s.eta now = 0) := by
  refine ⟨?_, ?_, ?_, ?_, ?_, ?_⟩
  · intro h
    simp [TransferStats.percent, h]
  · intro h
    simp [TransferStats.elapsed, h]
  · intro h
    simp [TransferStats.speed, h]
  · intro h
    simp only [TransferStats.eta, if_pos h]
  · intro h1 h2
    unfold TransferStats.speed
    rw [if_neg (not_le.mpr h2)]
    exact div_pos (by exact_mod_cast h1) h2
  · intro h
    unfold TransferStats.eta
    by_cases hc : s.bytes_sent ≤ 0 ∨ s.elapsed now ≤ 0
    · rw [if_pos hc]
    · rw [if_neg hc]
      have hmax : max 0 (s.bytes_total - s.bytes_sent) = (0 : Int) := by omega
      rw [hmax]
      simp

/-- Witness for C10: eta at concrete stats with bytes_sent beyond
bytes_total is zero. -/
theorem stats_accessors_total_witness :
    TransferStats.eta { start_time := 1, bytes_sent := 5, bytes_total := 3 } 2 = 0 :=
  (stats_accessors_total { start_time := 1, bytes_sent := 5, bytes_total := 3 } 2).2.2.2.2.2
    (by decide)
